import Mathlib

/-!
Verification of the simulation core of the `notquiteparadise` repository.

Each definition below is a shallow embedding of a Python function from the
repository's source, translated control-flow-faithfully:

* `process_result`, `tile_followups`, `lunge_activate` embed
  `BaseSkill._process_result` and the `while effects:` loop of
  `Lunge.activate` / `BasicAttack.activate` (`scripts/nqp/skills.py`).
  Effects are identified by `Nat` ids and an `EffectStore` gives each
  effect's `success_effects` / `fail_effects` lists; the per-tile result of
  `act.process_effect` is an oracle `outcome` consumed at an increasing
  counter.  `lunge_activate` is fuel-indexed (the Python loop is unbounded)
  and returns the trace of processed effects, in order, when it finishes
  within the fuel.
* `chebyshev`, `process_activations_entity`, `process_activations` embed
  `process_activations` (`scripts/engine/core/system.py`).
* `process_fov_blocked` embeds the blocking-entity scan inside
  `process_fov` (`scripts/engine/core/system.py`).
* `get_entitys_component_tracked`, `spend_time` embed
  `get_entitys_component` and `spend_time` (`scripts/engine/existence.py`)
  together with Python exception flow (`PyExc`).
* `process_die` embeds `EntityHandler.process_die`
  (`scripts/nqp/entity_handler.py`); `PyVal` distinguishes the imported
  module object named `entity` from entity ids, because the source compares
  the two.
* `process_skill` embeds `EntityHandler.process_skill`
  (`scripts/nqp/entity_handler.py`).
* `apply_damage` embeds `apply_damage` (`scripts/engine/existence.py`).
-/

/-! ## Effect chaining (scripts/nqp/skills.py) -/

/-- Success and fail follow-up effect lists for every effect id; the
embedding of the `success_effects` / `fail_effects` fields of `EffectData`. -/
structure EffectStore where
  succ : Nat → List Nat
  fail : Nat → List Nat

/-- Embedding of `BaseSkill._process_result`: `if result and
effect.success_effects: return effect.success_effects; elif not result and
effect.fail_effects: return effect.fail_effects; return []`. -/
def process_result (store : EffectStore) (result : Bool) (eff : Nat) : List Nat :=
  if result && !(store.succ eff).isEmpty then store.succ eff
  else if !result && !(store.fail eff).isEmpty then store.fail eff
  else []

/-- Embedding of the `for tile in target_tiles:` body of `Lunge.activate`
for one popped effect: for each of `tiles` tiles, in order, evaluate the
effect (consuming the outcome oracle at counter `ctr + t`) and append the
success/fail follow-ups returned by `_process_result`. -/
def tile_followups (store : EffectStore) (outcome : Nat → Bool) (eff ctr : Nat) :
    Nat → List Nat
  | 0 => []
  | Nat.succ t =>
      tile_followups store outcome eff ctr t ++ process_result store (outcome (ctr + t)) eff

/-- Embedding of the `while effects:` loop of `Lunge.activate`:
`effect = effects.pop()` removes the LAST element of the Python list, the
effect is applied to every target tile, and any follow-up effects are
appended at the end of the list.  The function is fuel-indexed because the
source loop has no a-priori bound; it returns the trace of processed
effects (in processing order) when the loop empties the list within the
fuel, and `none` when the fuel runs out first. -/
def lunge_activate (store : EffectStore) (outcome : Nat → Bool) (tiles : Nat) :
    Nat → List Nat → Nat → Option (List Nat)
  | _, [], _ => some []
  | 0, _ :: _, _ => none
  | Nat.succ fuel, e :: es, ctr =>
      match lunge_activate store outcome tiles fuel
          ((e :: es).dropLast ++
            tile_followups store outcome ((e :: es).getLast (List.cons_ne_nil e es)) ctr tiles)
          (ctr + tiles) with
      | none => none
      | some trace => some ((e :: es).getLast (List.cons_ne_nil e es) :: trace)

/-- Effect `b` is a success-only or fail-only follow-up of effect `a`. -/
def Follows (store : EffectStore) (b a : Nat) : Prop :=
  b ∈ store.succ a ∨ b ∈ store.fail a

/-- An effect store with no follow-up effects at all. -/
def empty_store : EffectStore := ⟨fun _ => [], fun _ => []⟩

/-- An effect store in which effect 0's success follow-up is effect 1 and
effect 1's success follow-up is effect 0: a two-cycle in which no effect
references itself as its own follow-up. -/
def cycle_store : EffectStore :=
  ⟨fun a => if a = 0 then [1] else if a = 1 then [0] else [], fun _ => []⟩

/-! ## Activation pass (scripts/engine/core/system.py, process_activations) -/

/-- Chebyshev distance, as computed in `process_activations`:
`max(abs(player_pos.x - pos.x), abs(player_pos.y - pos.y))`. -/
def chebyshev (a b : Int × Int) : Nat :=
  max (a.1 - b.1).natAbs (a.2 - b.2).natAbs

/-- An entity as seen by the activation pass: its optional `Position`
component, whether the `IsActive` flag component is attached, and the
`time_spent` of its optional `Tracked` component. -/
structure ActEntity where
  id : Nat
  pos : Option (Int × Int)
  isActive : Bool
  tracked : Option Int
deriving DecidableEq

/-- The world state the activation pass reads: the entity list, the
player's position, the global time (`hourglass.get_time()`), and the
`MAX_ACTIVATION_DISTANCE` constant. -/
structure ActWorld where
  entities : List ActEntity
  playerPos : Int × Int
  time : Int
  maxDist : Nat
deriving DecidableEq

/-- Action of `process_activations` on a single entity.  An entity with no
position gets `IsActive` if absent.  An entity with a position within the
activation distance (`max(dx, dy) < MAX_ACTIVATION_DISTANCE`) gets
`IsActive` if absent, and on that (re)activation its `Tracked.time_spent`,
when present, is assigned `hourglass.get_time() + 1`; outside the distance
`IsActive` is removed if present. -/
def process_activations_entity (playerPos : Int × Int) (time : Int) (maxDist : Nat)
    (e : ActEntity) : ActEntity :=
  match e.pos with
  | none => if e.isActive then e else { e with isActive := true }
  | some p =>
      if chebyshev playerPos p < maxDist then
        if e.isActive then e
        else
          { e with
            isActive := true
            tracked := match e.tracked with
                       | none => none
                       | some _ => some (time + 1) }
      else
        if e.isActive then { e with isActive := false } else e

/-- Embedding of `process_activations`: every entity is updated by
`process_activations_entity` (the source's two query loops, over entities
without and with a position, act on each entity independently). -/
def process_activations (w : ActWorld) : ActWorld :=
  { w with entities := w.entities.map (process_activations_entity w.playerPos w.time w.maxDist) }

/-! ## Component lookup and spend_time (scripts/engine/existence.py) -/

/-- Python exceptions relevant to `spend_time`. -/
inductive PyExc where
  | keyError
  | attributeError
deriving DecidableEq

/-- Embedding of `get_entitys_component(entity, Tracked)`: the component's
`time_spent` when the component is attached, otherwise `none` (the source
logs the not-found condition and returns `None`). -/
def get_entitys_component_tracked (e : ActEntity) : Option Int := e.tracked

/-- Embedding of `spend_time` with Python exception flow: the `try` body
fetches the `Tracked` component via `get_entitys_component` and runs
`tracked.time_spent += time_spent`; when the lookup returned `None` that
attribute access raises `AttributeError`.  The `except KeyError` clause
catches only `KeyError`, in which case the condition is logged and the
call returns normally. -/
def spend_time (e : ActEntity) (timeSpent : Int) : Except PyExc ActEntity :=
  let body : Except PyExc ActEntity :=
    match get_entitys_component_tracked e with
    | some t => Except.ok { e with tracked := some (t + timeSpent) }
    | none => Except.error PyExc.attributeError
  match body with
  | Except.error PyExc.keyError => Except.ok e
  | r => r

/-! ## FOV blocking-entity scan (scripts/engine/core/system.py, process_fov) -/

/-- An entity as seen by the blocking-entity scan of `process_fov`: its id,
its `Physicality.height` and its `Position.coordinates`. -/
structure FovEntity where
  id : Nat
  height : Nat
  coordinates : List (Int × Int)
deriving DecidableEq

/-- Embedding of the inner loop of `process_fov` building
`updated_block_sight_map` for one viewing entity: every other active
entity is skipped when it is the viewer itself (`entity == other_entity`)
or when the viewer is strictly taller
(`physicality.height > other_physicality.height`); otherwise all of its
coordinates are marked as blocking sight.  The returned list is the set of
coordinates marked blocked. -/
def process_fov_blocked (viewer : FovEntity) : List FovEntity → List (Int × Int)
  | [] => []
  | o :: rest =>
      if viewer.id = o.id then process_fov_blocked viewer rest
      else if o.height < viewer.height then process_fov_blocked viewer rest
      else o.coordinates ++ process_fov_blocked viewer rest

/-! ## Death handling (scripts/nqp/entity_handler.py, process_die) -/

/-- A Python value that is either the module object bound to the name
`entity` by `from scripts.engine import ... entity ...` or an entity id.
In `process_die` the source compares the name `entity` — the module —
against entity ids, and Python `==` between a module and an int is
`False`. -/
inductive PyVal where
  | moduleRef
  | eid (n : Nat)
deriving DecidableEq

/-- Turn-queue state read and written by `process_die`. -/
structure DieState where
  turnQueue : List Nat
  turnHolder : Nat
  player : Nat
  rebuilt : Bool
  deleted : List Nat
deriving DecidableEq

/-- Embedding of `EntityHandler.process_die`: the dying entity is removed
from the turn queue when present; then `if entity == chrono.get_turn_holder()
and entity != entity.get_player(): chrono.build_new_turn_queue()` — where
`entity` is the imported module, so both comparisons are between `PyVal.moduleRef`
and a `PyVal.eid` — and finally the entity is scheduled for deletion.
`rebuilt` records whether `build_new_turn_queue` was invoked. -/
def process_die (st : DieState) (dyingEntity : Nat) : DieState :=
  let q := if dyingEntity ∈ st.turnQueue
           then st.turnQueue.filter (fun x => x != dyingEntity)
           else st.turnQueue
  let doRebuild :=
    (PyVal.moduleRef == PyVal.eid st.turnHolder) &&
      !(PyVal.moduleRef == PyVal.eid st.player)
  let st' := { st with turnQueue := q }
  let st'' := if doRebuild then { st' with rebuilt := true } else st'
  { st'' with deleted := st''.deleted ++ [dyingEntity] }

/-! ## Skill cost handling (scripts/nqp/entity_handler.py, process_skill) -/

/-- Fields of the skill data record used by `process_skill`:
the truthiness of `resource_type`, the `resource_cost` and the
`time_cost`. -/
structure SkillData where
  resourceRequired : Bool
  resourceCost : Nat
  timeCost : Nat
deriving DecidableEq

/-- The actor state read and written by `process_skill`: its current value
of the skill's resource, and whether it is the player / a god. -/
structure SkillActor where
  resourceValue : Nat
  isPlayer : Bool
  isGod : Bool
deriving DecidableEq

/-- Events published by `process_skill` via `publisher.publish`. -/
inductive GameEvent where
  | endTurn (timeCost : Nat)
  | cannotAffordMessage
  | skillUsed
deriving DecidableEq

/-- Modelled from the spec: `skill.can_afford_cost` (module
`scripts/engine/skill.py`, not among the provided sources) — "verify the
actor can afford the resource cost". -/
def can_afford_cost (value cost : Nat) : Bool := cost ≤ value

/-- Modelled from the spec: `skill.pay_resource_cost` (module
`scripts/engine/skill.py`, not among the provided sources) — "the resource
cost is deducted". -/
def pay_resource_cost (value cost : Nat) : Nat := value - cost

/-- Embedding of `EntityHandler.process_skill`.  Returns the actor state,
the list of published events and whether a `logging.warning` was emitted.
When `resource_type` is set and the cost is affordable, the cost is paid,
the skill is used, and an end-turn event is published unless the actor is
a god.  When the cost is not affordable: the player gets a
`MessageEvent`, any other actor only a warning log. -/
def process_skill (actor : SkillActor) (data : SkillData) :
    SkillActor × List GameEvent × Bool :=
  if data.resourceRequired then
    if can_afford_cost actor.resourceValue data.resourceCost then
      ({ actor with resourceValue := pay_resource_cost actor.resourceValue data.resourceCost },
        GameEvent.skillUsed ::
          (if actor.isGod then [] else [GameEvent.endTurn data.timeCost]),
        false)
    else if actor.isPlayer then (actor, [GameEvent.cannotAffordMessage], false)
    else (actor, [], true)
  else (actor, [], false)

/-! ## Damage (scripts/engine/existence.py, apply_damage) -/

/-- The `Resources` component: `health` and `stamina`. -/
structure Resources where
  health : Int
  stamina : Int
deriving DecidableEq

/-- Embedding of `apply_damage`: `resource.health -= damage; return
resource.health`.  Returns the updated component and the returned
health value. -/
def apply_damage (r : Resources) (damage : Int) : Resources × Int :=
  let r' : Resources := { r with health := r.health - damage }
  (r', r'.health)

/-! ## Helper lemmas -/

lemma pae_pos (playerPos : Int × Int) (time : Int) (maxDist : Nat) (e : ActEntity) :
    (process_activations_entity playerPos time maxDist e).pos = e.pos := by
  cases hp : e.pos with
  | none =>
      simp only [process_activations_entity, hp]
      split_ifs <;> simp [hp]
  | some p =>
      simp only [process_activations_entity, hp]
      split_ifs <;> simp [hp]

lemma pae_active_none (playerPos : Int × Int) (time : Int) (maxDist : Nat) (e : ActEntity)
    (hp : e.pos = none) :
    (process_activations_entity playerPos time maxDist e).isActive = true := by
  simp only [process_activations_entity, hp]
  by_cases ha : e.isActive <;> simp [ha]

lemma pae_active_some (playerPos : Int × Int) (time : Int) (maxDist : Nat) (e : ActEntity)
    (p : Int × Int) (hp : e.pos = some p) :
    ((process_activations_entity playerPos time maxDist e).isActive = true ↔
      chebyshev playerPos p < maxDist) := by
  simp only [process_activations_entity, hp]
  by_cases hd : chebyshev playerPos p < maxDist <;> by_cases ha : e.isActive <;>
    simp [hd, ha]

lemma pae_tracked_reactivate (playerPos : Int × Int) (time : Int) (maxDist : Nat)
    (e : ActEntity) (p : Int × Int) (t : Int) (hp : e.pos = some p)
    (hd : chebyshev playerPos p < maxDist) (hact : e.isActive = false)
    (htr : e.tracked = some t) :
    (process_activations_entity playerPos time maxDist e).tracked = some (time + 1) := by
  simp [process_activations_entity, hp, hd, hact, htr]


lemma process_fov_blocked_superset (viewer : FovEntity) (o : FovEntity) :
    ∀ (others : List FovEntity), o ∈ others → viewer.id ≠ o.id →
      viewer.height ≤ o.height →
      ∀ c ∈ o.coordinates, c ∈ process_fov_blocked viewer others := by
  intro others
  induction others with
  | nil => intro h; simp at h
  | cons a rest ih =>
      intro hmem hne htall c hc
      rw [process_fov_blocked]
      rcases List.mem_cons.mp hmem with rfl | hmem'
      · rw [if_neg hne, if_neg (by omega)]
        exact List.mem_append_left _ hc
      · split_ifs with h1 h2
        · exact ih hmem' hne htall c hc
        · exact ih hmem' hne htall c hc
        · exact List.mem_append_right _ (ih hmem' hne htall c hc)

lemma process_fov_blocked_sound (viewer : FovEntity) :
    ∀ (others : List FovEntity), ∀ c ∈ process_fov_blocked viewer others,
      ∃ b, b ∈ others ∧ viewer.id ≠ b.id ∧ viewer.height ≤ b.height ∧
        c ∈ b.coordinates := by
  intro others
  induction others with
  | nil => intro c hc; simp [process_fov_blocked] at hc
  | cons a rest ih =>
      intro c hc
      rw [process_fov_blocked] at hc
      split_ifs at hc with h1 h2
      · obtain ⟨b, hb, h⟩ := ih c hc
        exact ⟨b, List.mem_cons_of_mem _ hb, h⟩
      · obtain ⟨b, hb, h⟩ := ih c hc
        exact ⟨b, List.mem_cons_of_mem _ hb, h⟩
      · rcases List.mem_append.mp hc with hca | hcr
        · exact ⟨a, List.mem_cons_self _ _, h1, by omega, hca⟩
        · obtain ⟨b, hb, h⟩ := ih c hcr
          exact ⟨b, List.mem_cons_of_mem _ hb, h⟩

/-! ## Claim theorems -/

/-- C1: the claim states that follow-up effects queued during skill
activation are processed first-in-first-out.  The source comment at the
`pop` call says `# FIFO`, but Python `list.pop()` removes the LAST
element, so with the two initial effects `[0, 1]` (and no follow-ups) the
loop processes effect 1 before effect 0: the processing order is
last-in-first-out, contradicting both the claim and the source's own
comment. -/
theorem skill_activation_pop_order :
    lunge_activate empty_store (fun _ => true) 1 3 [0, 1] 0 = some [1, 0] ∧
    lunge_activate empty_store (fun _ => true) 1 3 [0, 1] 0 ≠ some [0, 1] := by
  exact ⟨rfl, by decide⟩

/-- C3: after the activation pass, an entity without a position has the
activation flag set, and an entity with a position has it set if and only
if its Chebyshev distance to the player is within the activation distance
(strictly below `MAX_ACTIVATION_DISTANCE`, as the source computes it). -/
theorem activation_flag_post_pass (w : ActWorld) (e' : ActEntity)
    (h : e' ∈ (process_activations w).entities) :
    (e'.pos = none → e'.isActive = true) ∧
    ∀ p, e'.pos = some p →
      (e'.isActive = true ↔ chebyshev w.playerPos p < w.maxDist) := by
  simp only [process_activations, List.mem_map] at h
  obtain ⟨e, -, rfl⟩ := h
  constructor
  · intro hp
    rw [pae_pos] at hp
    exact pae_active_none w.playerPos w.time w.maxDist e hp
  · intro p hp
    rw [pae_pos] at hp
    exact pae_active_some w.playerPos w.time w.maxDist e p hp

/-- C3 witness: in a world with activation distance 2, an entity without a
position ends the pass active, as `activation_flag_post_pass` states. -/
theorem activation_flag_post_pass_witness :
    ((⟨0, none, true, none⟩ : ActEntity).pos = none →
      (⟨0, none, true, none⟩ : ActEntity).isActive = true) ∧
    ∀ p, (⟨0, none, true, none⟩ : ActEntity).pos = some p →
      ((⟨0, none, true, none⟩ : ActEntity).isActive = true ↔
        chebyshev (⟨[⟨0, none, false, none⟩], (0, 0), 0, 2⟩ : ActWorld).playerPos p <
          (⟨[⟨0, none, false, none⟩], (0, 0), 0, 2⟩ : ActWorld).maxDist) :=
  activation_flag_post_pass ⟨[⟨0, none, false, none⟩], (0, 0), 0, 2⟩
    ⟨0, none, true, none⟩ (by decide)

/-- C4: when an entity that has a Tracked component, is within the
activation distance and is not currently active goes through the
activation pass, its tracked time is set to the current global time plus
one, hence to at least time + 1. -/
theorem reactivation_time_sync (playerPos : Int × Int) (time : Int) (maxDist : Nat)
    (e : ActEntity) (p : Int × Int) (t : Int)
    (hp : e.pos = some p) (hd : chebyshev playerPos p < maxDist)
    (hact : e.isActive = false) (htr : e.tracked = some t) :
    ∃ t', (process_activations_entity playerPos time maxDist e).tracked = some t' ∧
      time + 1 ≤ t' :=
  ⟨time + 1, pae_tracked_reactivate playerPos time maxDist e p t hp hd hact htr,
    le_refl _⟩

/-- C4 witness: an inactive tracked entity at Chebyshev distance 1 with
activation distance 2 has its tracked time advanced to at least
global time 5 plus 1. -/
theorem reactivation_time_sync_witness :
    ∃ t', (process_activations_entity (0, 0) 5 2 ⟨1, some (1, 0), false, some 0⟩).tracked =
        some t' ∧ (5 : Int) + 1 ≤ t' :=
  reactivation_time_sync (0, 0) 5 2 ⟨1, some (1, 0), false, some 0⟩ (1, 0) 0
    rfl (by decide) rfl rfl

/-- C5 counterexample: the claim states time_spent never decreases except
on a full queue rebuild.  An inactive entity with stale tracked time 100
that re-activates at global time 10 has its tracked time reassigned to
11 < 100 by the activation pass: a decrease. -/
theorem time_spent_monotonic_counterexample :
    (⟨1, some (0, 0), false, some 100⟩ : ActEntity).tracked = some 100 ∧
    (process_activations_entity (0, 0) 10 5 ⟨1, some (0, 0), false, some 100⟩).tracked =
      some 11 ∧
    (11 : Int) < 100 := by
  refine ⟨rfl, by decide, by decide⟩

/-- C5 amended: for EVERY entity with a Tracked component — whatever its
position, activation state or distance to the player — time_spent never
decreases when spending time on end-turn with a nonnegative cost; but the
activation pass, when re-activating a tracked entity, assigns time_spent
the value global time + 1 exactly, which is a decrease whenever the stale
prior value exceeded time + 1. -/
theorem time_spent_monotonic_amended :
    (∀ (e : ActEntity) (t cost : Int), e.tracked = some t → 0 ≤ cost →
      ∃ e', spend_time e cost = Except.ok e' ∧ e'.tracked = some (t + cost) ∧
        t ≤ t + cost) ∧
    (∀ (playerPos : Int × Int) (time : Int) (maxDist : Nat) (e : ActEntity)
        (p : Int × Int) (t : Int), e.pos = some p →
        chebyshev playerPos p < maxDist → e.isActive = false →
        e.tracked = some t →
        (process_activations_entity playerPos time maxDist e).tracked =
          some (time + 1)) := by
  constructor
  · intro e t cost htr hc
    refine ⟨{ e with tracked := some (t + cost) }, ?_, rfl, by omega⟩
    simp [spend_time, get_entitys_component_tracked, htr]
  · intro playerPos time maxDist e p t hp hd hact htr
    exact pae_tracked_reactivate playerPos time maxDist e p t hp hd hact htr

/-- C5 amended witness: a position-less, already-active tracked entity
(an ordinary end-turn spender untouched by the activation pass) spends a
cost of 30 and its tracked time 100 rises to 130 ≥ 100; and a re-activating
entity at global time 10 gets tracked time 10 + 1. -/
theorem time_spent_monotonic_amended_witness :
    (∃ e', spend_time ⟨2, none, true, some 100⟩ 30 = Except.ok e' ∧
      e'.tracked = some (100 + 30) ∧ (100 : Int) ≤ 100 + 30) ∧
    (process_activations_entity (0, 0) 10 5 ⟨1, some (0, 0), false, some 100⟩).tracked =
      some (10 + 1) :=
  ⟨time_spent_monotonic_amended.1 ⟨2, none, true, some 100⟩ 100 30 rfl (by decide),
    time_spent_monotonic_amended.2 (0, 0) 10 5 ⟨1, some (0, 0), false, some 100⟩
      (0, 0) 100 rfl (by decide) rfl rfl⟩

/-- C6: the claim states that when the current non-player turn holder
dies, the turn queue is rebuilt.  In the source the rebuild condition
compares the imported module object `entity` with the turn holder's id,
which is never equal, so `build_new_turn_queue` is never invoked: here
entity 3 is the turn holder and not the player (7), yet `rebuilt` stays
`false` (the dead entity is still removed from the queue and deleted). -/
theorem process_die_never_rebuilds :
    process_die ⟨[3, 5], 3, 7, false, []⟩ 3 = ⟨[5], 3, 7, false, [3]⟩ ∧
    ∀ (st : DieState) (dying : Nat), (process_die st dying).rebuilt = st.rebuilt := by
  exact ⟨by decide, fun st dying => rfl⟩

/-- C8 counterexample: the claim states an actor that cannot afford a
skill's cost gets a user-facing message event.  A non-player actor with
resource 3 attempting a skill of cost 5 gets no event at all (only a
warning log): the message event is published only for the player. -/
theorem process_skill_npc_no_message :
    process_skill ⟨3, false, false⟩ ⟨true, 5, 30⟩ = (⟨3, false, false⟩, [], true) ∧
    GameEvent.cannotAffordMessage ∉ (process_skill ⟨3, false, false⟩ ⟨true, 5, 30⟩).2.1 := by
  exact ⟨rfl, by decide⟩

/-- C8 amended: when the actor cannot afford the skill's resource cost,
resolution fails with no state change — no resource deducted, no end-turn
event, the skill unused — and a user-facing message event is published
when the actor is the player, while any other actor only triggers a
warning log. -/
theorem process_skill_cannot_afford (actor : SkillActor) (data : SkillData)
    (hreq : data.resourceRequired = true)
    (hafford : can_afford_cost actor.resourceValue data.resourceCost = false) :
    process_skill actor data =
      (actor, (if actor.isPlayer then [GameEvent.cannotAffordMessage] else []),
        !actor.isPlayer) := by
  by_cases hp : actor.isPlayer <;> simp [process_skill, hreq, hafford, hp]

/-- C8 amended witness: the player with resource 3 and skill cost 5
receives exactly the cannot-afford message event and keeps its state. -/
theorem process_skill_cannot_afford_witness :
    process_skill ⟨3, true, false⟩ ⟨true, 5, 30⟩ =
      (⟨3, true, false⟩,
        (if (⟨3, true, false⟩ : SkillActor).isPlayer then [GameEvent.cannotAffordMessage]
         else []),
        !(⟨3, true, false⟩ : SkillActor).isPlayer) :=
  process_skill_cannot_afford ⟨3, true, false⟩ ⟨true, 5, 30⟩ rfl rfl

/-- C9: the claim states every missing-component lookup is recoverable and
operations built on the lookups complete without unhandled errors.  The
lookup itself does return `none`, but `spend_time` on an entity without a
Tracked component then evaluates `None.time_spent`, raising
`AttributeError`, which the `except KeyError` clause does not catch: the
call ends in an unhandled exception. -/
theorem spend_time_missing_tracked_crash :
    get_entitys_component_tracked ⟨0, none, true, none⟩ = none ∧
    spend_time ⟨0, none, true, none⟩ 10 = Except.error PyExc.attributeError := by
  exact ⟨rfl, rfl⟩

/-- C10: apply_damage subtracts exactly the damage from health and returns
the resulting health, without clamping at zero (health 5 minus damage 7
yields -2) and without touching stamina. -/
theorem apply_damage_spec (r : Resources) (d : Int) :
    (apply_damage r d).1.health = r.health - d ∧
    (apply_damage r d).2 = r.health - d ∧
    (apply_damage r d).1.stamina = r.stamina ∧
    (apply_damage ⟨5, 2⟩ 7).2 = -2 := by
  exact ⟨rfl, rfl, rfl, by decide⟩

/-- C2 counterexample: the claim states that of two blocking entities at
the same tile-distance from the observer, the taller one does not block
the observer's sight but the shorter one does.  With an observer of
height 2 at (0, 0) and entities of heights 1 (at (2, 0)) and 3 (at
(0, 2)), both at Chebyshev distance 2, the source marks exactly the
TALLER entity's tile as sight-blocking and leaves the shorter one's tile
transparent — the opposite of the claim (the comparison is against the
observer's own height). -/
theorem fov_height_claim_counterexample :
    chebyshev (2, 0) (0, 0) = chebyshev (0, 2) (0, 0) ∧
    (1 : Nat) < 3 ∧
    ((0, 2) : Int × Int) ∈
      process_fov_blocked ⟨0, 2, [(0, 0)]⟩ [⟨1, 1, [(2, 0)]⟩, ⟨2, 3, [(0, 2)]⟩] ∧
    ((2, 0) : Int × Int) ∉
      process_fov_blocked ⟨0, 2, [(0, 0)]⟩ [⟨1, 1, [(2, 0)]⟩, ⟨2, 3, [(0, 2)]⟩] := by
  refine ⟨by decide, by decide, by decide, by decide⟩

/-- C2 amended: occlusion is height-aware relative to the OBSERVER: an
entity at least as tall as the observer (other than the observer itself)
blocks the observer's sight — all its tiles are marked blocking — while
an entity strictly shorter than the observer never contributes blocked
tiles (every blocked tile belongs to some entity at least as tall as the
observer). -/
theorem fov_height_occlusion (viewer : FovEntity) (others : List FovEntity)
    (o : FovEntity) (hmem : o ∈ others) (hne : viewer.id ≠ o.id)
    (htall : viewer.height ≤ o.height) :
    (∀ c ∈ o.coordinates, c ∈ process_fov_blocked viewer others) ∧
    (∀ c ∈ process_fov_blocked viewer others,
      ∃ b, b ∈ others ∧ viewer.id ≠ b.id ∧ viewer.height ≤ b.height ∧
        c ∈ b.coordinates) :=
  ⟨process_fov_blocked_superset viewer o others hmem hne htall,
    process_fov_blocked_sound viewer others⟩

/-- C2 amended witness: for the observer of height 2 and the single other
entity of height 3 at (0, 2), that entity's tile is blocked and every
blocked tile belongs to an at-least-as-tall entity. -/
theorem fov_height_occlusion_witness :
    (∀ c ∈ (⟨2, 3, [(0, 2)]⟩ : FovEntity).coordinates,
      c ∈ process_fov_blocked ⟨0, 2, [(0, 0)]⟩ [⟨2, 3, [(0, 2)]⟩]) ∧
    (∀ c ∈ process_fov_blocked ⟨0, 2, [(0, 0)]⟩ [⟨2, 3, [(0, 2)]⟩],
      ∃ b, b ∈ [(⟨2, 3, [(0, 2)]⟩ : FovEntity)] ∧
        (⟨0, 2, [(0, 0)]⟩ : FovEntity).id ≠ b.id ∧
        (⟨0, 2, [(0, 0)]⟩ : FovEntity).height ≤ b.height ∧ c ∈ b.coordinates) :=
  fov_height_occlusion ⟨0, 2, [(0, 0)]⟩ [⟨2, 3, [(0, 2)]⟩] ⟨2, 3, [(0, 2)]⟩
    (by decide) (by decide) (by decide)

lemma cycle_store_no_self : ∀ a, ¬ Follows cycle_store a a := by
  intro a h
  rcases h with h | h
  · by_cases h0 : a = 0
    · subst h0; simp [cycle_store] at h
    · by_cases h1 : a = 1
      · subst h1; simp [cycle_store] at h
      · simp [cycle_store, h0, h1] at h
  · simp [cycle_store] at h

lemma cycle_store_bounded : ∀ a b, Follows cycle_store b a → b < 2 := by
  intro a b h
  rcases h with h | h
  · by_cases h0 : a = 0
    · subst h0; simp [cycle_store] at h; omega
    · by_cases h1 : a = 1
      · subst h1; simp [cycle_store] at h; omega
      · simp [cycle_store, h0, h1] at h
  · simp [cycle_store] at h

lemma cycle_store_loops : ∀ (fuel ctr e : Nat), e = 0 ∨ e = 1 →
    lunge_activate cycle_store (fun _ => true) 1 fuel [e] ctr = none := by
  intro fuel
  induction fuel with
  | zero => intro ctr e _; rfl
  | succ fuel ih =>
      intro ctr e he
      rcases he with rfl | rfl
      · have hrec := ih (ctr + 1) 1 (Or.inr rfl)
        simp only [cycle_store] at hrec
        simp [lunge_activate, tile_followups, process_result, cycle_store, hrec]
      · have hrec := ih (ctr + 1) 0 (Or.inl rfl)
        simp only [cycle_store] at hrec
        simp [lunge_activate, tile_followups, process_result, cycle_store, hrec]

/-- C7 counterexample: the claim states the activation loop terminates for
every finite effect collection in which no effect is its own follow-up.
In `cycle_store` effect 0's follow-up is effect 1 and vice versa — a
finite collection (all follow-ups below 2) with no self-reference — yet
starting from the single effect 0 the loop never empties the effect list:
no amount of fuel makes it finish. -/
theorem effect_loop_cycle_diverges :
    (∀ a, ¬ Follows cycle_store a a) ∧
    (∀ a b, Follows cycle_store b a → b < 2) ∧
    ¬ ∃ fuel, (lunge_activate cycle_store (fun _ => true) 1 fuel [0] 0).isSome = true := by
  refine ⟨cycle_store_no_self, cycle_store_bounded, ?_⟩
  rintro ⟨fuel, h⟩
  rw [cycle_store_loops fuel 0 0 (Or.inl rfl)] at h
  simp at h

lemma mem_process_result {store : EffectStore} {r : Bool} {eff b : Nat}
    (h : b ∈ process_result store r eff) : Follows store b eff := by
  unfold process_result at h
  split_ifs at h with h1 h2
  · exact Or.inl h
  · exact Or.inr h
  · simp at h

lemma mem_tile_followups {store : EffectStore} {outcome : Nat → Bool} {eff ctr : Nat} :
    ∀ {t b : Nat}, b ∈ tile_followups store outcome eff ctr t → Follows store b eff := by
  intro t
  induction t with
  | zero => intro b h; simp [tile_followups] at h
  | succ t ih =>
      intro b h
      rw [tile_followups] at h
      rcases List.mem_append.mp h with h' | h'
      · exact ih h'
      · exact mem_process_result h'

lemma process_result_length_le {store : EffectStore} {r : Bool} {eff : Nat} :
    (process_result store r eff).length ≤
      max (store.succ eff).length (store.fail eff).length := by
  unfold process_result
  split_ifs
  · exact le_max_left _ _
  · exact le_max_right _ _
  · simp

lemma tile_followups_length {store : EffectStore} {outcome : Nat → Bool} {eff ctr : Nat}
    (L : Nat) (hL : max (store.succ eff).length (store.fail eff).length ≤ L) :
    ∀ t, (tile_followups store outcome eff ctr t).length ≤ t * L := by
  intro t
  induction t with
  | zero => simp [tile_followups]
  | succ t ih =>
      rw [tile_followups, List.length_append]
      have h1 := @process_result_length_le store (outcome (ctr + t)) eff
      have : (t + 1) * L = t * L + L := by ring
      omega

/-- Sum of `K ^ R e` over the pending effect list: the termination measure
of the activation loop. -/
def effect_measure (R : Nat → Nat) (K : Nat) (es : List Nat) : Nat :=
  (es.map fun e => K ^ R e).sum

lemma effect_measure_append (R : Nat → Nat) (K : Nat) (xs ys : List Nat) :
    effect_measure R K (xs ++ ys) = effect_measure R K xs + effect_measure R K ys := by
  simp [effect_measure]

lemma sum_le_length_mul : ∀ (l : List Nat) (c : Nat), (∀ x ∈ l, x ≤ c) →
    l.sum ≤ l.length * c := by
  intro l c h
  induction l with
  | nil => simp
  | cons a l ih =>
      have ha := h a (List.mem_cons_self a l)
      have hl := ih fun x hx => h x (List.mem_cons_of_mem a hx)
      simp only [List.sum_cons, List.length_cons]
      have : (l.length + 1) * c = l.length * c + c := by ring
      omega

lemma le_foldr_max : ∀ (l : List Nat) (x : Nat), x ∈ l → x ≤ l.foldr max 0 := by
  intro l
  induction l with
  | nil => intro x h; simp at h
  | cons a l ih =>
      intro x h
      rcases List.mem_cons.mp h with rfl | h'
      · exact le_max_left _ _
      · exact le_trans (ih x h') (le_max_right _ _)

/-- Bound on the length of any success/fail follow-up list of any effect
id below `N`. -/
def followup_bound (store : EffectStore) (N : Nat) : Nat :=
  ((List.range N).map fun a => max (store.succ a).length (store.fail a).length).foldr max 0

lemma followup_bound_spec {store : EffectStore} {N a : Nat} (ha : a < N) :
    max (store.succ a).length (store.fail a).length ≤ followup_bound store N :=
  le_foldr_max _ _ (List.mem_map.mpr ⟨a, List.mem_range.mpr ha, rfl⟩)

lemma followups_measure_lt {store : EffectStore} {outcome : Nat → Bool}
    {ctr tiles : Nat} {R : Nat → Nat} {K L eff : Nat}
    (hL : max (store.succ eff).length (store.fail eff).length ≤ L)
    (hK : tiles * L < K)
    (hrank : ∀ b, Follows store b eff → R b < R eff) :
    effect_measure R K (tile_followups store outcome eff ctr tiles) < K ^ R eff := by
  have hK1 : 1 ≤ K := by omega
  by_cases hemp : tile_followups store outcome eff ctr tiles = []
  · rw [hemp]
    simp only [effect_measure, List.map_nil, List.sum_nil]
    exact pow_pos (by omega) _
  · obtain ⟨b, hb⟩ := List.exists_mem_of_ne_nil _ hemp
    have hRb := hrank b (mem_tile_followups hb)
    have hbound : ∀ x ∈ (tile_followups store outcome eff ctr tiles).map fun e => K ^ R e,
        x ≤ K ^ (R eff - 1) := by
      intro x hx
      obtain ⟨c, hc, rfl⟩ := List.mem_map.mp hx
      exact Nat.pow_le_pow_right hK1 (by have := hrank c (mem_tile_followups hc); omega)
    have hsum := sum_le_length_mul _ _ hbound
    rw [List.length_map] at hsum
    have hlen := @tile_followups_length store outcome eff ctr L hL tiles
    have hpow : 0 < K ^ (R eff - 1) := pow_pos (by omega) _
    have hstep : (tile_followups store outcome eff ctr tiles).length * K ^ (R eff - 1) ≤
        (tiles * L) * K ^ (R eff - 1) := Nat.mul_le_mul_right _ hlen
    have hlt : (tiles * L) * K ^ (R eff - 1) < K * K ^ (R eff - 1) :=
      Nat.mul_lt_mul_of_lt_of_le hK (le_refl _) hpow
    have hKpow : K * K ^ (R eff - 1) = K ^ R eff := by
      rw [← pow_succ']
      congr 1
      omega
    calc effect_measure R K (tile_followups store outcome eff ctr tiles)
        ≤ (tile_followups store outcome eff ctr tiles).length * K ^ (R eff - 1) := hsum
      _ ≤ (tiles * L) * K ^ (R eff - 1) := hstep
      _ < K * K ^ (R eff - 1) := hlt
      _ = K ^ R eff := hKpow

lemma lunge_activate_total {store : EffectStore} {outcome : Nat → Bool} {tiles N : Nat}
    {R : Nat → Nat} {L K : Nat}
    (hclosed : ∀ a, a < N → ∀ b, Follows store b a → b < N)
    (hrank : ∀ a, a < N → ∀ b, Follows store b a → R b < R a)
    (hL : ∀ a, a < N → max (store.succ a).length (store.fail a).length ≤ L)
    (hK : tiles * L < K) :
    ∀ (fuel : Nat) (es : List Nat) (ctr : Nat), (∀ e ∈ es, e < N) →
      effect_measure R K es < fuel →
      (lunge_activate store outcome tiles fuel es ctr).isSome = true := by
  intro fuel
  induction fuel with
  | zero => intro es ctr _ hm; omega
  | succ fuel ih =>
      intro es ctr hval hm
      cases es with
      | nil => rfl
      | cons e es' =>
          have hne : e :: es' ≠ [] := List.cons_ne_nil e es'
          have heffmem : (e :: es').getLast hne ∈ e :: es' := List.getLast_mem hne
          have heffN : (e :: es').getLast hne < N := hval _ heffmem
          have hsplit : (e :: es').dropLast ++ [(e :: es').getLast hne] = e :: es' :=
            List.dropLast_append_getLast hne
          have hmes : effect_measure R K (e :: es') =
              effect_measure R K (e :: es').dropLast + K ^ R ((e :: es').getLast hne) := by
            conv_lhs => rw [← hsplit]
            rw [effect_measure_append]
            simp [effect_measure]
          have hfwlt : effect_measure R K
              (tile_followups store outcome ((e :: es').getLast hne) ctr tiles) <
              K ^ R ((e :: es').getLast hne) :=
            followups_measure_lt (hL _ heffN) hK (fun b hb => hrank _ heffN b hb)
          have hm' : effect_measure R K ((e :: es').dropLast ++
              tile_followups store outcome ((e :: es').getLast hne) ctr tiles) < fuel := by
            rw [effect_measure_append]
            omega
          have hval' : ∀ x ∈ (e :: es').dropLast ++
              tile_followups store outcome ((e :: es').getLast hne) ctr tiles, x < N := by
            intro x hx
            rcases List.mem_append.mp hx with hx' | hx'
            · exact hval x (List.mem_of_mem_dropLast hx')
            · exact hclosed _ heffN x (mem_tile_followups hx')
          have hrec := ih _ (ctr + tiles) hval' hm'
          rw [Option.isSome_iff_exists] at hrec
          obtain ⟨tr, htr⟩ := hrec
          rw [lunge_activate, htr]
          rfl

lemma exists_rank (store : EffectStore) (N : Nat)
    (hclosed : ∀ a, a < N → ∀ b, Follows store b a → b < N)
    (hacyc : ∀ a, ¬ Relation.TransGen (Follows store) a a) :
    ∃ R : Nat → Nat, ∀ a, a < N → ∀ b, Follows store b a → R b < R a := by
  classical
  refine ⟨fun b =>
    if h : b < N then
      Set.ncard {c : Fin N |
        Relation.TransGen (fun x y : Fin N => Follows store x.val y.val) c ⟨b, h⟩}
    else 0, ?_⟩
  intro a ha b hba
  have hb : b < N := hclosed a ha b hba
  dsimp only
  rw [dif_pos hb, dif_pos ha]
  have hsub : {c : Fin N |
      Relation.TransGen (fun x y : Fin N => Follows store x.val y.val) c ⟨b, hb⟩} ⊆
      {c : Fin N |
      Relation.TransGen (fun x y : Fin N => Follows store x.val y.val) c ⟨a, ha⟩} := by
    intro c hc
    exact Relation.TransGen.tail hc hba
  apply Set.ncard_lt_ncard
  · rw [Set.ssubset_iff_of_subset hsub]
    refine ⟨⟨b, hb⟩, Relation.TransGen.single hba, ?_⟩
    intro hmem
    exact hacyc b (Relation.TransGen.lift (fun x : Fin N => x.val) (fun x y hxy => hxy) hmem)
  · exact Set.toFinite _

/-- C7 amended: the claim's hypothesis "no effect references itself as its
own follow-up" must be strengthened to "no effect is reachable from
itself through the follow-up relation" (the follow-up relation is
acyclic).  Under that hypothesis, for any finite effect collection
(ids below `N`, closed under follow-ups) and any initial effect list,
outcome sequence and tile count, the activation loop terminates: some
amount of fuel finishes it. -/
theorem effect_loop_terminates_acyclic (store : EffectStore) (N tiles : Nat)
    (outcome : Nat → Bool)
    (hclosed : ∀ a, a < N → ∀ b, Follows store b a → b < N)
    (hacyc : ∀ a, ¬ Relation.TransGen (Follows store) a a)
    (effects : List Nat) (hval : ∀ e ∈ effects, e < N) (ctr : Nat) :
    ∃ fuel, (lunge_activate store outcome tiles fuel effects ctr).isSome = true := by
  obtain ⟨R, hrank⟩ := exists_rank store N hclosed hacyc
  refine ⟨effect_measure R (tiles * followup_bound store N + 1) effects + 1, ?_⟩
  exact lunge_activate_total hclosed hrank (fun a ha => followup_bound_spec ha)
    (Nat.lt_succ_self _) _ effects ctr hval (Nat.lt_succ_self _)

/-- C7 amended witness: with no follow-up effects at all (trivially
acyclic), the loop started on the single effect 0 terminates. -/
theorem effect_loop_terminates_acyclic_witness :
    ∃ fuel, (lunge_activate empty_store (fun _ => true) 1 fuel [0] 0).isSome = true :=
  effect_loop_terminates_acyclic empty_store 1 1 (fun _ => true)
    (fun _ _ b hb => absurd hb (by simp [Follows, empty_store]))
    (fun a h => by
      cases h with
      | single h' => simp [Follows, empty_store] at h'
      | tail _ h' => simp [Follows, empty_store] at h')
    [0] (by decide) 0
